import Mathlib

/-!
Shallow embedding of the session-orchestration core of `App.jsx`
(Jamaican A.I conversational client).

The React component state (`useState` hooks) becomes an explicit record
`AppState`; each handler becomes a pure function from state (plus the
external inputs it reads: the clock `Date.now()`, the backend outcome,
capability availability) to a new state together with an ordered list of
emitted `Effect`s recording the side effects in the order the source
performs them.  `Date.now()` and `toLocaleTimeString()` readings are a
`Nat` parameter `now`.  JavaScript `undefined` object fields become
`Option`; numeric speech parameters (rate/pitch/volume) are `Rat`.
-/

/-- The `voice_model` object carried by a backend response; the source
only ever reads its `tempo` field (`App.jsx` line 227).  `tempo` may be
absent. -/
structure VoiceModel where
  tempo : Option String
deriving DecidableEq

/-- A conversation message as built at `App.jsx` lines 155-160 (user),
184-193 (assistant) and 205-212 (error).  Fields a given constructor
site does not set are `none` / `false` (JS `undefined`). -/
structure Message where
  id : Nat
  text : String
  sender : String
  model : Option String
  modelInfo : Option String
  voiceModel : Option VoiceModel
  timestamp : Nat
  processingTime : Option Rat
  error : Bool
deriving DecidableEq

/-- The JSON body of `POST /chat` (`App.jsx` lines 172-179), with the
nested `context` object flattened. -/
structure ChatRequest where
  message : String
  user_id : String
  selected_model : String
  conversation_history : List Message
deriving DecidableEq

/-- The `data.response` payload of a successful chat response
(`App.jsx` lines 183-192). -/
structure ChatResponse where
  text : String
  selected_model : String
  model_info : Option String
  voice_model : Option VoiceModel
  processing_time : Option Rat
deriving DecidableEq

/-- Outcome of the `fetch` to `/chat`: `ok` (2xx with parsed body),
non-success status (`response.ok` false, line 201), or a thrown network
error.  The latter two both reach the `catch` block (lines 204-214). -/
inductive BackendOutcome where
  | ok (data : ChatResponse)
  | httpError
  | networkError
deriving DecidableEq

/-- A `SpeechSynthesisUtterance` as configured at `App.jsx`
lines 226-229. -/
structure Utterance where
  text : String
  rate : Rat
  pitch : Rat
  volume : Rat
deriving DecidableEq

/-- The component state: one field per `useState` hook
(`App.jsx` lines 78-85). -/
structure AppState where
  messages : List Message
  inputMessage : String
  isLoading : Bool
  selectedModel : String
  isListening : Bool
  isSpeaking : Bool
  connectionStatus : String
deriving DecidableEq

/-- Initial hook values (`App.jsx` lines 78-85). -/
def initialState : AppState :=
  { messages := []
    inputMessage := ""
    isLoading := false
    selectedModel := "claude"
    isListening := false
    isSpeaking := false
    connectionStatus := "disconnected" }

/-- JavaScript `String.prototype.trim()`: strips whitespace from both
ends (used in the guard `!inputMessage.trim()`, `App.jsx` line 153, and
nowhere else — the stored and sent text stays untrimmed). -/
def jsTrim (s : String) : String :=
  String.mk (((s.data.dropWhile Char.isWhitespace).reverse.dropWhile Char.isWhitespace).reverse)

/-- Observable side effects, recorded in source order. -/
inductive Effect where
  | appendMsg (m : Message)
  | clearInput
  | setLoading (b : Bool)
  | issueRequest (r : ChatRequest)
  | startPlayback (text : String) (vm : VoiceModel)
deriving DecidableEq

/-- The backend requests contained in an action trace. -/
def requestsOf (acts : List Effect) : List ChatRequest :=
  acts.filterMap fun a =>
    match a with
    | .issueRequest r => some r
    | _ => none

/-- Whether an action starts voice playback. -/
def isStartPlayback : Effect → Bool
  | .appendMsg _ => false
  | .clearInput => false
  | .setLoading _ => false
  | .issueRequest _ => false
  | .startPlayback _ _ => true

/-- Models `Array.prototype.slice(-n)`: the last `min n (length l)` elements in
original order (`messages.slice(-5)`, `App.jsx` line 177). -/
def sliceLast (n : Nat) (l : List α) : List α :=
  l.drop (l.length - n)

/-- The apostrophe character, kept out of string literals. -/
def apos : String := String.singleton (Char.ofNat 39)

/-- The fixed apology text of the synthetic error message
(`App.jsx` line 207). -/
def apologyText : String :=
  "Sorry, I" ++ apos ++ "m having trouble connecting right now. Please try again in a moment."

/-- The user message built at `App.jsx` lines 155-160:
`id: Date.now()`, `text: inputMessage` (not trimmed), sender user. -/
def userMessageOf (s : AppState) (now : Nat) : Message :=
  { id := now
    text := s.inputMessage
    sender := "user"
    model := none
    modelInfo := none
    voiceModel := none
    timestamp := now
    processingTime := none
    error := false }

/-- The request body built at `App.jsx` lines 172-179.  Crucially,
`conversation_history: messages.slice(-5)` reads the `messages` closure
variable, i.e. the store as it was BEFORE the `setMessages` append on
line 162. -/
def chatRequestOf (s : AppState) : ChatRequest :=
  { message := s.inputMessage
    user_id := "user_123"
    selected_model := s.selectedModel
    conversation_history := sliceLast 5 s.messages }

/-- First half of `sendMessage` (`App.jsx` lines 152-180), up to the
`await fetch`: the guard `if (!inputMessage.trim() || isLoading) return`,
the optimistic user append, clearing the input, setting the loading flag
and issuing the request. -/
def sendMessageSubmit (s : AppState) (now : Nat) : AppState × List Effect :=
  if jsTrim s.inputMessage = "" ∨ s.isLoading = true then (s, [])
  else
    let userMessage := userMessageOf s now
    let req := chatRequestOf s
    ({ s with
        messages := s.messages ++ [userMessage]
        inputMessage := ""
        isLoading := true },
     [.appendMsg userMessage, .clearInput, .setLoading true, .issueRequest req])

/-- The assistant message built at `App.jsx` lines 184-193:
`id: Date.now() + 1`, fields copied from `data.response`. -/
def aiMessageOf (data : ChatResponse) (now : Nat) : Message :=
  { id := now + 1
    text := data.text
    sender := "ai"
    model := some data.selected_model
    modelInfo := data.model_info
    voiceModel := data.voice_model
    timestamp := now
    processingTime := data.processing_time
    error := false }

/-- The synthetic error message built at `App.jsx` lines 205-212. -/
def errorMessageOf (now : Nat) : Message :=
  { id := now + 1
    text := apologyText
    sender := "ai"
    model := some "error"
    modelInfo := none
    voiceModel := none
    timestamp := now
    processingTime := none
    error := true }

/-- Models `synthesizeVoice` (`App.jsx` lines 220-245).  `speechSupported`
models the speechSynthesis-in-window capability check.  The speaking flag is set BEFORE
the support check (line 222); when unsupported no utterance is created,
so no `onend`/`onerror` event ever fires for this call.  Returns the
new state and the utterance handed to `speechSynthesis.speak`, if any. -/
def synthesizeVoice (speechSupported : Bool) (text : String) (voiceModel : VoiceModel)
    (s : AppState) : AppState × Option Utterance :=
  let s1 := { s with isSpeaking := true }
  if speechSupported then
    (s1, some
      { text := text
        rate :=
          if voiceModel.tempo = some "fast" then 12/10
          else if voiceModel.tempo = some "slow_moderate" then 8/10
          else 1
        pitch := 1
        volume := 8/10 })
  else (s1, none)

/-- The utterance `onend` handler (`App.jsx` lines 231-233). -/
def utteranceOnEnd (s : AppState) : AppState := { s with isSpeaking := false }

/-- The utterance `onerror` handler (`App.jsx` lines 235-237). -/
def utteranceOnError (s : AppState) : AppState := { s with isSpeaking := false }

/-- Second half of `sendMessage` (`App.jsx` lines 182-217): response
handling, the auto-play guard `if (data.response.voice_model &&
!isSpeaking)` (line 198), the catch block, and the `finally
{ setIsLoading(false) }`.  The `isSpeaking` read is taken from the
state passed in, playing the role of the closure value. -/
def sendMessageComplete (s : AppState) (outcome : BackendOutcome) (now : Nat)
    (speechSupported : Bool) : AppState × List Effect :=
  match outcome with
  | .ok data =>
      let aiMessage := aiMessageOf data now
      let s1 := { s with messages := s.messages ++ [aiMessage] }
      match data.voice_model with
      | some vm =>
          if s.isSpeaking = false then
            let s2 := (synthesizeVoice speechSupported data.text vm s1).1
            ({ s2 with isLoading := false },
             [.appendMsg aiMessage, .startPlayback data.text vm, .setLoading false])
          else
            ({ s1 with isLoading := false }, [.appendMsg aiMessage, .setLoading false])
      | none =>
          ({ s1 with isLoading := false }, [.appendMsg aiMessage, .setLoading false])
  | _ =>
      let errorMessage := errorMessageOf now
      ({ s with messages := s.messages ++ [errorMessage], isLoading := false },
       [.appendMsg errorMessage, .setLoading false])

/-- One full round of `sendMessage`: the submission half and, when a
request was actually issued, the completion half applied to the
resulting state. -/
def sendMessageRound (s : AppState) (now1 : Nat) (outcome : BackendOutcome) (now2 : Nat)
    (speechSupported : Bool) : AppState × List Effect :=
  let r1 := sendMessageSubmit s now1
  if (requestsOf r1.2).isEmpty then r1
  else
    let r2 := sendMessageComplete r1.1 outcome now2 speechSupported
    (r2.1, r1.2 ++ r2.2)

/-- The single emission of a capture attempt: `recognition.onresult`
carries `event.results[0][0].transcript`. -/
inductive RecognitionEvent where
  | result (transcript : String)
  | error
  | ended
deriving DecidableEq

/-- The three recognition handlers (`App.jsx` lines 97-109):
`onresult` writes the transcript into the input buffer and clears the
listening flag; `onerror` and `onend` only clear the listening flag. -/
def handleRecognitionEvent : RecognitionEvent → AppState → AppState
  | .result t, s => { s with inputMessage := t, isListening := false }
  | .error, s => { s with isListening := false }
  | .ended, s => { s with isListening := false }

/-- Models `startListening` (`App.jsx` lines 247-252); `hasRecognition` models
`recognitionRef.current` being non-null. -/
def startListening (hasRecognition : Bool) (s : AppState) : AppState :=
  if hasRecognition = true ∧ s.isListening = false then { s with isListening := true } else s

/-- Models `stopListening` (`App.jsx` lines 254-259). -/
def stopListening (hasRecognition : Bool) (s : AppState) : AppState :=
  if hasRecognition = true ∧ s.isListening = true then { s with isListening := false } else s

/-- Models `stopSpeaking` (`App.jsx` lines 261-266): guarded only by
the speechSynthesis-in-window capability check; `speechSynthesis.cancel()` itself has no
component-state effect. -/
def stopSpeaking (speechSupported : Bool) (s : AppState) : AppState :=
  if speechSupported then { s with isSpeaking := false } else s

/-- The events the component reacts to, one constructor per handler.
The `Nat` arguments are the `Date.now()` / clock readings the handler
performs. -/
inductive Op where
  | submit (now : Nat)
  | complete (outcome : BackendOutcome) (now : Nat) (speechSupported : Bool)
  | recEvent (e : RecognitionEvent)
  | startCapture (hasRecognition : Bool)
  | stopCapture (hasRecognition : Bool)
  | stopPlayback (speechSupported : Bool)
  | utterEnd
  | utterError
  | selectModel (key : String)
  | setInput (t : String)
deriving DecidableEq

/-- One event processed by the component, dispatching to the handler
functions above.  `selectModel` is the artist button `onClick`
(`App.jsx` line 321); `setInput` is the text input `onChange`
(line 432). -/
def step (s : AppState) : Op → AppState
  | .submit now => (sendMessageSubmit s now).1
  | .complete outcome now sup => (sendMessageComplete s outcome now sup).1
  | .recEvent e => handleRecognitionEvent e s
  | .startCapture hasRec => startListening hasRec s
  | .stopCapture hasRec => stopListening hasRec s
  | .stopPlayback sup => stopSpeaking sup s
  | .utterEnd => utteranceOnEnd s
  | .utterError => utteranceOnError s
  | .selectModel key => { s with selectedModel := key }
  | .setInput t => { s with inputMessage := t }

/-- A sequence of events processed in order. -/
def run (s : AppState) (ops : List Op) : AppState :=
  ops.foldl step s

/-- The clock reading an event performs, if any. -/
def opRead : Op → Option Nat
  | .submit now => some now
  | .complete _ now _ => some now
  | _ => none

/-- Clock discipline for a run: each reading is at least the given lower
bound, and successive readings grow by at least 2 (ids are `now` or
`now + 1`, so a gap of 2 keeps them apart). -/
def ReadsOK : Nat → List Op → Prop
  | _, [] => True
  | c, op :: rest =>
      match opRead op with
      | some r => c ≤ r ∧ ReadsOK (r + 2) rest
      | none => ReadsOK c rest

/-- All ids in a message list lie strictly below a bound. -/
def IdsBelow (l : List Message) (c : Nat) : Prop :=
  ∀ m ∈ l, m.id < c

/-- Strict id order between two messages. -/
def idLt (a b : Message) : Prop := a.id < b.id

instance : DecidableRel idLt := fun a b => inferInstanceAs (Decidable (a.id < b.id))

instance (l : List Message) (c : Nat) : Decidable (IdsBelow l c) :=
  inferInstanceAs (Decidable (∀ m ∈ l, m.id < c))

/- Sanity checks of the embedding on concrete inputs. -/

example : jsTrim "  Wah gwaan " = "Wah gwaan" := by decide

example : sendMessageSubmit initialState 7 = (initialState, []) := by decide

example :
    (sendMessageSubmit { initialState with inputMessage := "hi" } 7).1.messages.length = 1 := by
  decide

/-- The first component of `synthesizeVoice` always has the speaking
flag set (the flag is set before the support check). -/
theorem synthesizeVoice_fst (sup : Bool) (t : String) (vm : VoiceModel) (s : AppState) :
    (synthesizeVoice sup t vm s).1 = { s with isSpeaking := true } := by
  cases sup <;> rfl

/-- C3: submitting while the session is `AwaitingResponse`
(`isLoading = true`) or while the pending-input buffer is blank after
trimming is a no-op — the state is returned unchanged and no effect
(no message append, no backend request) is emitted
(`App.jsx` line 153). -/
theorem submit_blank_or_awaiting_noop (s : AppState) (now : Nat)
    (h : jsTrim s.inputMessage = "" ∨ s.isLoading = true) :
    sendMessageSubmit s now = (s, []) := by
  unfold sendMessageSubmit
  rw [if_pos h]

/-- Witness for C3: a state with a whitespace-only buffer, and one with
a loading flag, are both left untouched. -/
theorem submit_blank_or_awaiting_noop_witness :
    sendMessageSubmit { initialState with inputMessage := "   " } 5 =
      ({ initialState with inputMessage := "   " }, []) ∧
    sendMessageSubmit { initialState with inputMessage := "hi", isLoading := true } 5 =
      ({ initialState with inputMessage := "hi", isLoading := true }, []) :=
  ⟨submit_blank_or_awaiting_noop _ 5 (Or.inl (by decide)),
   submit_blank_or_awaiting_noop _ 5 (Or.inr rfl)⟩

/-- C6: the tempo-to-speech-parameter mapping of `synthesizeVoice`
(`App.jsx` lines 226-229) is exact: `fast → rate 1.2`,
`slow_moderate → rate 0.8`, any other tempo (including absent)
→ rate 1.0; pitch is 1.0 and volume is 0.8. -/
theorem tempo_mapping_exact (text : String) (vm : VoiceModel) (s : AppState) :
    ∃ u : Utterance, (synthesizeVoice true text vm s).2 = some u ∧
      u.text = text ∧ u.pitch = 1 ∧ u.volume = 8/10 ∧
      (vm.tempo = some "fast" → u.rate = 12/10) ∧
      (vm.tempo = some "slow_moderate" → u.rate = 8/10) ∧
      (vm.tempo ≠ some "fast" → vm.tempo ≠ some "slow_moderate" → u.rate = 1) := by
  refine ⟨_, rfl, rfl, rfl, rfl, ?_, ?_, ?_⟩
  · intro h
    simp [h]
  · intro h
    simp [h]
  · intro h1 h2
    simp [h1, h2]

/-- Witness for C6: a fast-tempo profile yields rate 1.2 and a profile
with no tempo yields rate 1.0. -/
theorem tempo_mapping_exact_witness :
    (∃ u : Utterance,
      (synthesizeVoice true "Irie" ⟨some "fast"⟩ initialState).2 = some u ∧ u.rate = 12/10) ∧
    (∃ u : Utterance,
      (synthesizeVoice true "Irie" ⟨none⟩ initialState).2 = some u ∧ u.rate = 1) := by
  constructor
  · obtain ⟨u, h1, _, _, _, h5, _, _⟩ := tempo_mapping_exact "Irie" ⟨some "fast"⟩ initialState
    exact ⟨u, h1, h5 rfl⟩
  · obtain ⟨u, h1, _, _, _, _, _, h7⟩ := tempo_mapping_exact "Irie" ⟨none⟩ initialState
    exact ⟨u, h1, h7 (by decide) (by decide)⟩

/-- C7: every recognition emission clears the listening flag and never
touches the conversation; `onresult` writes the transcript into the
pending-input buffer (and nothing else), while `onerror` and `onend`
leave the buffer (and every other field) unchanged
(`App.jsx` lines 97-109). -/
theorem capture_emission_ends_listening (s : AppState) (e : RecognitionEvent) (t : String) :
    (handleRecognitionEvent e s).isListening = false ∧
    (handleRecognitionEvent e s).messages = s.messages ∧
    handleRecognitionEvent (.result t) s = { s with inputMessage := t, isListening := false } ∧
    handleRecognitionEvent .error s = { s with isListening := false } ∧
    handleRecognitionEvent .ended s = { s with isListening := false } := by
  refine ⟨?_, ?_, rfl, rfl, rfl⟩ <;> cases e <;> rfl

/-- C9: `stopListening` when not listening and `stopSpeaking` when not
speaking leave the state exactly as it was (`App.jsx` lines 254-266). -/
theorem stop_inactive_idempotent (s : AppState) (hasRecognition speechSupported : Bool)
    (hl : s.isListening = false) (hs : s.isSpeaking = false) :
    stopListening hasRecognition s = s ∧ stopSpeaking speechSupported s = s := by
  constructor
  · unfold stopListening
    rw [if_neg]
    simp [hl]
  · unfold stopSpeaking
    split
    · cases s
      simp_all
    · rfl

/-- Witness for C9: stopping capture and playback on the initial
(inactive) state changes nothing. -/
theorem stop_inactive_idempotent_witness :
    stopListening true initialState = initialState ∧
    stopSpeaking true initialState = initialState :=
  stop_inactive_idempotent initialState true true rfl rfl

/-- C4 (code bug evaluated): when the speech-synthesis engine is absent
(`speechSupported = false`), `synthesizeVoice` still sets the speaking
flag (it is set before the support check, `App.jsx` line 222) but
creates no utterance, so no `onend`/`onerror` event can ever clear the
flag — and `stopSpeaking` is guarded by the same support check and is a
no-op too.  The controller is left `Speaking` indefinitely, against the
spec. -/
theorem playback_unsupported_stuck_speaking :
    (synthesizeVoice false "Irie, my friend" ⟨some "fast"⟩ initialState).1.isSpeaking = true ∧
    (synthesizeVoice false "Irie, my friend" ⟨some "fast"⟩ initialState).2 = none ∧
    stopSpeaking false (synthesizeVoice false "Irie, my friend" ⟨some "fast"⟩ initialState).1 =
      (synthesizeVoice false "Irie, my friend" ⟨some "fast"⟩ initialState).1 := by
  refine ⟨rfl, rfl, rfl⟩

/-- C10: the submitted text is used raw: the appended user message
`text` and the request `message` field are the pending-input buffer
exactly as typed (no trimming), and the trimmed text being non-blank is
all the guard ensures (`App.jsx` lines 153, 157, 173). -/
theorem submitted_text_untrimmed (s : AppState) (now : Nat)
    (h1 : jsTrim s.inputMessage ≠ "") (h2 : s.isLoading = false) :
    (sendMessageSubmit s now).1.messages = s.messages ++ [userMessageOf s now] ∧
    (userMessageOf s now).text = s.inputMessage ∧
    requestsOf (sendMessageSubmit s now).2 = [chatRequestOf s] ∧
    (chatRequestOf s).message = s.inputMessage ∧
    jsTrim (userMessageOf s now).text ≠ "" := by
  have hg : ¬ (jsTrim s.inputMessage = "" ∨ s.isLoading = true) := by
    simp [h1, h2]
  unfold sendMessageSubmit
  rw [if_neg hg]
  exact ⟨rfl, rfl, rfl, rfl, h1⟩

/-- Witness for C10: a buffer with leading and trailing spaces is
stored and sent verbatim, spaces included. -/
theorem submitted_text_untrimmed_witness :
    (sendMessageSubmit { initialState with inputMessage := " Wah gwaan " } 9).1.messages =
      [] ++ [userMessageOf { initialState with inputMessage := " Wah gwaan " } 9] ∧
    (userMessageOf { initialState with inputMessage := " Wah gwaan " } 9).text = " Wah gwaan " ∧
    requestsOf (sendMessageSubmit { initialState with inputMessage := " Wah gwaan " } 9).2 =
      [chatRequestOf { initialState with inputMessage := " Wah gwaan " }] ∧
    (chatRequestOf { initialState with inputMessage := " Wah gwaan " }).message = " Wah gwaan " ∧
    jsTrim (userMessageOf { initialState with inputMessage := " Wah gwaan " } 9).text ≠ "" :=
  submitted_text_untrimmed { initialState with inputMessage := " Wah gwaan " } 9
    (by decide) rfl

/-- C5: on backend failure (non-success status or network exception —
both reach the `catch`, `App.jsx` lines 201-214) exactly one synthetic
assistant message is appended after the user message, carrying
`error = true` and the fixed apology text; the loading flag ends false
(`finally`), the input buffer stays cleared, listening/speaking are
untouched, and exactly one request was issued in the whole round (no
retry). -/
theorem backend_failure_single_error_message (s : AppState) (now1 now2 : Nat)
    (outcome : BackendOutcome) (sup : Bool)
    (h1 : jsTrim s.inputMessage ≠ "") (h2 : s.isLoading = false)
    (hfail : outcome = .httpError ∨ outcome = .networkError) :
    (sendMessageRound s now1 outcome now2 sup).1.messages =
      s.messages ++ [userMessageOf s now1, errorMessageOf now2] ∧
    (errorMessageOf now2).error = true ∧
    (errorMessageOf now2).text = apologyText ∧
    (userMessageOf s now1).error = false ∧
    (sendMessageRound s now1 outcome now2 sup).1.inputMessage = "" ∧
    (sendMessageRound s now1 outcome now2 sup).1.isLoading = false ∧
    (sendMessageRound s now1 outcome now2 sup).1.isListening = s.isListening ∧
    (sendMessageRound s now1 outcome now2 sup).1.isSpeaking = s.isSpeaking ∧
    requestsOf (sendMessageRound s now1 outcome now2 sup).2 = [chatRequestOf s] := by
  have hg : ¬ (jsTrim s.inputMessage = "" ∨ s.isLoading = true) := by
    simp [h1, h2]
  rcases hfail with h | h <;> subst h <;>
    · unfold sendMessageRound sendMessageSubmit sendMessageComplete
      rw [if_neg hg]
      simp [requestsOf, errorMessageOf, userMessageOf]

/-- Witness for C5: a failing round from a concrete ready state. -/
theorem backend_failure_single_error_message_witness :
    (sendMessageRound { initialState with inputMessage := "hi" } 3 .networkError 4 true).1.messages
      = [] ++ [userMessageOf { initialState with inputMessage := "hi" } 3, errorMessageOf 4] ∧
    (errorMessageOf 4).error = true ∧
    (errorMessageOf 4).text = apologyText ∧
    (userMessageOf { initialState with inputMessage := "hi" } 3).error = false ∧
    (sendMessageRound { initialState with inputMessage := "hi" } 3 .networkError 4 true).1.inputMessage = "" ∧
    (sendMessageRound { initialState with inputMessage := "hi" } 3 .networkError 4 true).1.isLoading = false ∧
    (sendMessageRound { initialState with inputMessage := "hi" } 3 .networkError 4 true).1.isListening = false ∧
    (sendMessageRound { initialState with inputMessage := "hi" } 3 .networkError 4 true).1.isSpeaking = false ∧
    requestsOf (sendMessageRound { initialState with inputMessage := "hi" } 3 .networkError 4 true).2 =
      [chatRequestOf { initialState with inputMessage := "hi" }] :=
  backend_failure_single_error_message { initialState with inputMessage := "hi" } 3 4
    .networkError true (by decide) rfl (Or.inr rfl)

/-- C8: at most one playback at a time.  Playback is auto-started by a
successful response only when it carries a voice profile and the
speaking flag is down (`App.jsx` line 198); a response arriving while
already speaking gets no playback effect at all (dropped, not queued),
and when playback does start, the assistant-message append effect
precedes it in the trace. -/
theorem playback_exclusive_guard (s : AppState) (data : ChatResponse) (now : Nat)
    (sup : Bool) (vm : VoiceModel) :
    ((sendMessageComplete s (.ok data) now sup).2.any isStartPlayback = true →
      s.isSpeaking = false ∧ data.voice_model ≠ none) ∧
    (s.isSpeaking = true →
      (sendMessageComplete s (.ok data) now sup).2 =
        [.appendMsg (aiMessageOf data now), .setLoading false]) ∧
    (s.isSpeaking = false → data.voice_model = some vm →
      (sendMessageComplete s (.ok data) now sup).2 =
        [.appendMsg (aiMessageOf data now), .startPlayback data.text vm, .setLoading false]) := by
  refine ⟨?_, ?_, ?_⟩
  · intro h
    cases hv : data.voice_model with
    | none => simp [sendMessageComplete, hv, isStartPlayback] at h
    | some w =>
        cases hs : s.isSpeaking with
        | true => simp [sendMessageComplete, hv, hs, isStartPlayback] at h
        | false => exact ⟨rfl, by simp [hv]⟩
  · intro hs
    cases hv : data.voice_model with
    | none => simp [sendMessageComplete, hv, hs]
    | some w => simp [sendMessageComplete, hv, hs]
  · intro hs hvm
    simp [sendMessageComplete, hvm, hs]

/-- Witness for C8: with a voice-profile response, playback starts (and
follows the append) when not speaking, and is dropped when speaking. -/
theorem playback_exclusive_guard_witness :
    (sendMessageComplete { initialState with isLoading := true }
        (.ok ⟨"Irie", "claude", none, some ⟨some "fast"⟩, none⟩) 20 true).2 =
      [.appendMsg (aiMessageOf ⟨"Irie", "claude", none, some ⟨some "fast"⟩, none⟩ 20),
       .startPlayback "Irie" ⟨some "fast"⟩, .setLoading false] ∧
    (sendMessageComplete { initialState with isLoading := true, isSpeaking := true }
        (.ok ⟨"Irie", "claude", none, some ⟨some "fast"⟩, none⟩) 20 true).2 =
      [.appendMsg (aiMessageOf ⟨"Irie", "claude", none, some ⟨some "fast"⟩, none⟩ 20),
       .setLoading false] :=
  ⟨(playback_exclusive_guard { initialState with isLoading := true }
      ⟨"Irie", "claude", none, some ⟨some "fast"⟩, none⟩ 20 true ⟨some "fast"⟩).2.2 rfl rfl,
   (playback_exclusive_guard { initialState with isLoading := true, isSpeaking := true }
      ⟨"Irie", "claude", none, some ⟨some "fast"⟩, none⟩ 20 true ⟨some "fast"⟩).2.1 rfl⟩

/-- C1 counterexample: from an empty conversation with buffer
`"Wah gwaan"`, submission issues a request whose
`conversation_history` is `[]` — the just-appended user message is NOT
part of the context, because `messages.slice(-5)` (`App.jsx` line 177)
reads the pre-append `messages` value.  The last-5 view of the
post-append store is `[userMessage]`, which differs. -/
theorem submit_context_omits_new_message_counterexample :
    requestsOf (sendMessageSubmit { initialState with inputMessage := "Wah gwaan" } 1000).2 =
      [chatRequestOf { initialState with inputMessage := "Wah gwaan" }] ∧
    (chatRequestOf { initialState with inputMessage := "Wah gwaan" }).conversation_history = [] ∧
    sliceLast 5
        (sendMessageSubmit { initialState with inputMessage := "Wah gwaan" } 1000).1.messages =
      [userMessageOf { initialState with inputMessage := "Wah gwaan" } 1000] ∧
    (chatRequestOf { initialState with inputMessage := "Wah gwaan" }).conversation_history ≠
      sliceLast 5
        (sendMessageSubmit { initialState with inputMessage := "Wah gwaan" } 1000).1.messages := by
  exact ⟨by decide, by decide, by decide, by decide⟩

/-- C1 amended: a submission that passes the guard appends exactly one
user message, clears the buffer, and issues exactly one request
carrying the raw text, the selected persona, and the last
`min(5, length)` messages of the store as it was BEFORE the append
(the pre-append snapshot, per `messages.slice(-5)` on the closure
value); in the effect trace the user-message append (index 0) still
precedes the request issue (index 3). -/
theorem submit_appends_and_requests_preappend_context (s : AppState) (now : Nat)
    (h1 : jsTrim s.inputMessage ≠ "") (h2 : s.isLoading = false) :
    (sendMessageSubmit s now).1.messages = s.messages ++ [userMessageOf s now] ∧
    (sendMessageSubmit s now).1.inputMessage = "" ∧
    (sendMessageSubmit s now).1.isLoading = true ∧
    requestsOf (sendMessageSubmit s now).2 = [chatRequestOf s] ∧
    (chatRequestOf s).message = s.inputMessage ∧
    (chatRequestOf s).selected_model = s.selectedModel ∧
    (chatRequestOf s).conversation_history = sliceLast 5 s.messages ∧
    (sendMessageSubmit s now).2[0]? = some (.appendMsg (userMessageOf s now)) ∧
    (sendMessageSubmit s now).2[3]? = some (.issueRequest (chatRequestOf s)) := by
  have hg : ¬ (jsTrim s.inputMessage = "" ∨ s.isLoading = true) := by
    simp [h1, h2]
  unfold sendMessageSubmit
  rw [if_neg hg]
  exact ⟨rfl, rfl, rfl, rfl, rfl, rfl, rfl, rfl, rfl⟩

/-- Witness for the amended C1 at a store that already holds one
message, showing the request context is the pre-append snapshot. -/
theorem submit_appends_and_requests_preappend_context_witness :
    (sendMessageSubmit
        { initialState with
            messages := [userMessageOf { initialState with inputMessage := "yo" } 1]
            inputMessage := "Wah gwaan" } 1000).1.messages =
      [userMessageOf { initialState with inputMessage := "yo" } 1] ++
        [userMessageOf
          { initialState with
              messages := [userMessageOf { initialState with inputMessage := "yo" } 1]
              inputMessage := "Wah gwaan" } 1000] ∧
    (sendMessageSubmit
        { initialState with
            messages := [userMessageOf { initialState with inputMessage := "yo" } 1]
            inputMessage := "Wah gwaan" } 1000).1.inputMessage = "" ∧
    (sendMessageSubmit
        { initialState with
            messages := [userMessageOf { initialState with inputMessage := "yo" } 1]
            inputMessage := "Wah gwaan" } 1000).1.isLoading = true ∧
    requestsOf (sendMessageSubmit
        { initialState with
            messages := [userMessageOf { initialState with inputMessage := "yo" } 1]
            inputMessage := "Wah gwaan" } 1000).2 =
      [chatRequestOf
        { initialState with
            messages := [userMessageOf { initialState with inputMessage := "yo" } 1]
            inputMessage := "Wah gwaan" }] ∧
    (chatRequestOf
        { initialState with
            messages := [userMessageOf { initialState with inputMessage := "yo" } 1]
            inputMessage := "Wah gwaan" }).message = "Wah gwaan" ∧
    (chatRequestOf
        { initialState with
            messages := [userMessageOf { initialState with inputMessage := "yo" } 1]
            inputMessage := "Wah gwaan" }).selected_model = "claude" ∧
    (chatRequestOf
        { initialState with
            messages := [userMessageOf { initialState with inputMessage := "yo" } 1]
            inputMessage := "Wah gwaan" }).conversation_history =
      sliceLast 5 [userMessageOf { initialState with inputMessage := "yo" } 1] ∧
    (sendMessageSubmit
        { initialState with
            messages := [userMessageOf { initialState with inputMessage := "yo" } 1]
            inputMessage := "Wah gwaan" } 1000).2[0]? =
      some (.appendMsg (userMessageOf
        { initialState with
            messages := [userMessageOf { initialState with inputMessage := "yo" } 1]
            inputMessage := "Wah gwaan" } 1000)) ∧
    (sendMessageSubmit
        { initialState with
            messages := [userMessageOf { initialState with inputMessage := "yo" } 1]
            inputMessage := "Wah gwaan" } 1000).2[3]? =
      some (.issueRequest (chatRequestOf
        { initialState with
            messages := [userMessageOf { initialState with inputMessage := "yo" } 1]
            inputMessage := "Wah gwaan" })) :=
  submit_appends_and_requests_preappend_context
    { initialState with
        messages := [userMessageOf { initialState with inputMessage := "yo" } 1]
        inputMessage := "Wah gwaan" } 1000 (by decide) rfl

/-- C2 counterexample: ids come from `Date.now()` (`App.jsx` lines 156,
185, 206), so two submissions processed in the same millisecond (same
clock reading 1000) yield ids 1000, 1001, 1000 — neither unique nor
strictly increasing. -/
theorem ids_not_strictly_increasing_counterexample :
    ((run initialState
        [.setInput "a", .submit 1000, .complete .networkError 1000 true,
         .setInput "b", .submit 1000]).messages.map Message.id = [1000, 1001, 1000]) ∧
    ¬ List.Pairwise idLt
        (run initialState
          [.setInput "a", .submit 1000, .complete .networkError 1000 true,
           .setInput "b", .submit 1000]).messages := by
  exact ⟨by decide, by decide⟩

/-- Messages are preserved by any event that performs no clock reading. -/
theorem step_noread_messages (s : AppState) (op : Op) (hop : opRead op = none) :
    (step s op).messages = s.messages := by
  cases op with
  | submit now => simp [opRead] at hop
  | complete outcome now sup => simp [opRead] at hop
  | recEvent e => cases e <;> rfl
  | startCapture hasRec =>
      show (startListening hasRec s).messages = s.messages
      unfold startListening
      split <;> rfl
  | stopCapture hasRec =>
      show (stopListening hasRec s).messages = s.messages
      unfold stopListening
      split <;> rfl
  | stopPlayback sup =>
      show (stopSpeaking sup s).messages = s.messages
      unfold stopSpeaking
      split <;> rfl
  | utterEnd => rfl
  | utterError => rfl
  | selectModel key => rfl
  | setInput t => rfl

/-- An event with clock reading `r` either leaves the message list
unchanged or appends exactly one message whose id is `r` (user append)
or `r + 1` (assistant or error append). -/
theorem step_read_shape (s : AppState) (op : Op) (r : Nat) (hop : opRead op = some r) :
    (step s op).messages = s.messages ∨
    ∃ m, (step s op).messages = s.messages ++ [m] ∧ (m.id = r ∨ m.id = r + 1) := by
  cases op with
  | submit now =>
      obtain rfl : now = r := by simpa [opRead] using hop
      have hstep : step s (.submit now) = (sendMessageSubmit s now).1 := rfl
      rw [hstep]
      unfold sendMessageSubmit
      split
      · exact Or.inl rfl
      · exact Or.inr ⟨userMessageOf s now, rfl, Or.inl rfl⟩
  | complete outcome now sup =>
      obtain rfl : now = r := by simpa [opRead] using hop
      have hstep :
          step s (.complete outcome now sup) = (sendMessageComplete s outcome now sup).1 :=
        rfl
      rw [hstep]
      cases outcome with
      | ok data =>
          refine Or.inr ⟨aiMessageOf data now, ?_, Or.inr rfl⟩
          cases hv : data.voice_model with
          | none => simp [sendMessageComplete, hv]
          | some vm =>
              cases hs : s.isSpeaking <;>
                simp [sendMessageComplete, hv, hs, synthesizeVoice_fst]
      | httpError => exact Or.inr ⟨errorMessageOf now, rfl, Or.inr rfl⟩
      | networkError => exact Or.inr ⟨errorMessageOf now, rfl, Or.inr rfl⟩
  | recEvent e => simp [opRead] at hop
  | startCapture hasRec => simp [opRead] at hop
  | stopCapture hasRec => simp [opRead] at hop
  | stopPlayback sup => simp [opRead] at hop
  | utterEnd => simp [opRead] at hop
  | utterError => simp [opRead] at hop
  | selectModel key => simp [opRead] at hop
  | setInput t => simp [opRead] at hop

/-- Any single event only ever extends the message list at the end. -/
theorem step_messages_extend (s : AppState) (op : Op) :
    ∃ t, (step s op).messages = s.messages ++ t := by
  cases hop : opRead op with
  | none => exact ⟨[], by rw [step_noread_messages s op hop, List.append_nil]⟩
  | some r =>
      rcases step_read_shape s op r hop with h | ⟨m, h, _⟩
      · exact ⟨[], by rw [h, List.append_nil]⟩
      · exact ⟨[m], h⟩

/-- The store is append-only across any run: the prior message list is
always an unchanged prefix of the later one. -/
theorem run_append_only (ops : List Op) (s : AppState) :
    ∃ t, (run s ops).messages = s.messages ++ t := by
  induction ops generalizing s with
  | nil => exact ⟨[], by simp [run]⟩
  | cons op rest ih =>
      obtain ⟨t1, h1⟩ := step_messages_extend s op
      obtain ⟨t2, h2⟩ := ih (step s op)
      refine ⟨t1 ++ t2, ?_⟩
      have hrun : run s (op :: rest) = run (step s op) rest := rfl
      rw [hrun, h2, h1, List.append_assoc]

/-- Ids below a bound stay below any larger bound. -/
theorem idsBelow_mono {l : List Message} {c c' : Nat} (h : c ≤ c') (hb : IdsBelow l c) :
    IdsBelow l c' :=
  fun m hm => lt_of_lt_of_le (hb m hm) h

/-- Appending one message whose id is at least the current bound keeps
ids strictly increasing and yields the new bound `id + 1`. -/
theorem pairwise_append_one {l : List Message} {m : Message} {c : Nat}
    (hb : IdsBelow l c) (hp : List.Pairwise idLt l) (hm : c ≤ m.id) :
    List.Pairwise idLt (l ++ [m]) ∧ IdsBelow (l ++ [m]) (m.id + 1) := by
  constructor
  · rw [List.pairwise_append]
    refine ⟨hp, List.pairwise_singleton _ _, ?_⟩
    intro a ha b hbm
    rcases List.mem_singleton.mp hbm with rfl
    exact lt_of_lt_of_le (hb a ha) hm
  · intro x hx
    rcases List.mem_append.mp hx with hx | hx
    · exact lt_of_lt_of_le (hb x hx) (Nat.le_succ_of_le hm)
    · rcases List.mem_singleton.mp hx with rfl
      exact Nat.lt_succ_self _

/-- Under the clock discipline `ReadsOK`, any run keeps message ids
strictly increasing. -/
theorem run_ids_pairwise (ops : List Op) (s : AppState) (c : Nat)
    (hb : IdsBelow s.messages c) (hp : List.Pairwise idLt s.messages)
    (hr : ReadsOK c ops) :
    List.Pairwise idLt (run s ops).messages := by
  induction ops generalizing s c with
  | nil => exact hp
  | cons op rest ih =>
      have hrun : run s (op :: rest) = run (step s op) rest := rfl
      rw [hrun]
      cases hop : opRead op with
      | none =>
          have hmsg := step_noread_messages s op hop
          have hr' : ReadsOK c rest := by
            simpa [ReadsOK, hop] using hr
          have hbnew : IdsBelow (step s op).messages c := by
            rw [hmsg]
            exact hb
          have hpnew : List.Pairwise idLt (step s op).messages := by
            rw [hmsg]
            exact hp
          exact ih (step s op) c hbnew hpnew hr'
      | some r =>
          have hr' : c ≤ r ∧ ReadsOK (r + 2) rest := by
            simpa [ReadsOK, hop] using hr
          obtain ⟨hcr, hrr⟩ := hr'
          rcases step_read_shape s op r hop with hmsg | ⟨m, hmsg, hid⟩
          · have hbnew : IdsBelow (step s op).messages (r + 2) := by
              rw [hmsg]
              exact idsBelow_mono (by omega) hb
            have hpnew : List.Pairwise idLt (step s op).messages := by
              rw [hmsg]
              exact hp
            exact ih (step s op) (r + 2) hbnew hpnew hrr
          · have hcm : c ≤ m.id := by
              rcases hid with h1 | h1 <;> omega
            obtain ⟨hp', hb'⟩ := pairwise_append_one hb hp hcm
            have hbnew : IdsBelow (step s op).messages (r + 2) := by
              rw [hmsg]
              refine idsBelow_mono ?_ hb'
              rcases hid with h1 | h1 <;> omega
            have hpnew : List.Pairwise idLt (step s op).messages := by
              rw [hmsg]
              exact hp'
            exact ih (step s op) (r + 2) hbnew hpnew hrr

/-- C2 amended: across any event sequence the conversation list is
append-only (prior messages are never deleted, edited or reordered —
the old list is an unchanged prefix), and message ids are strictly
increasing PROVIDED the `Date.now()`-based clock readings obey the
discipline `ReadsOK`: each reading at least 2 above the previous one
and above all pre-existing ids.  (Without that proviso ids can repeat —
see the counterexample.) -/
theorem conversation_append_only_ids_increasing (s : AppState) (ops : List Op) (c : Nat)
    (hb : IdsBelow s.messages c) (hp : List.Pairwise idLt s.messages)
    (hr : ReadsOK c ops) :
    List.Pairwise idLt (run s ops).messages ∧
    ∃ t, (run s ops).messages = s.messages ++ t :=
  ⟨run_ids_pairwise ops s c hb hp hr, run_append_only ops s⟩

/-- Witness for the amended C2: a submit at clock 5 followed by a
failing completion at clock 7 yields ids 5 then 8, strictly
increasing, with the empty initial store as prefix. -/
theorem conversation_append_only_ids_increasing_witness :
    List.Pairwise idLt
      (run { initialState with inputMessage := "a" }
        [.submit 5, .complete .networkError 7 true]).messages ∧
    ∃ t, (run { initialState with inputMessage := "a" }
        [.submit 5, .complete .networkError 7 true]).messages =
      ({ initialState with inputMessage := "a" } : AppState).messages ++ t :=
  conversation_append_only_ids_increasing { initialState with inputMessage := "a" }
    [.submit 5, .complete .networkError 7 true] 0 (by decide) List.Pairwise.nil
    (by simp [ReadsOK, opRead])
